import Mathlib

/-!
Verification development for the ada-binance-bot trading engine.

Shallow embedding of the decision core: the position lifecycle manager
(src/src/services/PositionManager.ts), the dynamic level learner
(src/src/services/DynamicLevels.ts), the hedge strategy signal engine
(src/src/strategies/HedgeStrategy.ts, final revision in the file), and the
scalp sub-engine (src/unnamed/part_004, class ScalpStrategy).

Modelling conventions:
* JavaScript numbers are modelled as rationals (ℚ); integer counters as ℕ.
* Timestamps (`Date` values: `lastTouch`, `timestamp`, `openTime`) are omitted:
  no claim depends on them and they are ambient wall-clock reads.
* The Exchange Gateway (BinanceService) is modelled as a deterministic fill:
  `openPosition` yields a position with the requested side, size and leverage,
  entry at the signal price, a caller-supplied fresh id, and status OPEN.
* `async` functions are pure state transformers here: the engine awaits each
  call sequentially inside a single tick (single-flight design).
-/

namespace AdaBot

/-- Position side, src/src/types.ts. -/
inductive Side
  | LONG
  | SHORT
deriving DecidableEq, Repr

/-- Position role (`Position.type` in the source), src/src/types.ts. -/
inductive Role
  | ANCHOR
  | ANCHOR_HEDGE
  | OPPORTUNITY
  | OPPORTUNITY_HEDGE
  | SCALP
  | SCALP_HEDGE
deriving DecidableEq, Repr

/-- Position status, src/src/types.ts. -/
inductive Status
  | OPEN
  | CLOSED
deriving DecidableEq, Repr

/-- A leveraged position record, src/src/types.ts (pnl/closeTime omitted:
no claim reads them). -/
structure Position where
  id : Nat
  side : Side
  type : Role
  size : ℚ
  entryPrice : ℚ
  leverage : ℚ
  status : Status
deriving DecidableEq, Repr

/-- Signal kind, src/src/types.ts (`TradingSignal.type`). -/
inductive SignalType
  | ENTRY
  | HEDGE
  | RE_ENTRY
  | EXIT
deriving DecidableEq, Repr

/-- An engine output signal, src/src/types.ts (confidence/reason/timestamp
omitted: observability only, no claim reads them). -/
structure TradingSignal where
  type : SignalType
  position : Side
  price : ℚ
deriving DecidableEq, Repr

namespace PositionManager

/-- src/src/services/PositionManager.ts lines 334-343, `calculateLiquidationPrice`:
LONG liquidation = entry × (1 − 1/leverage), SHORT = entry × (1 + 1/leverage). -/
def calculateLiquidationPrice (position : Position) : ℚ :=
  if position.side = Side.LONG then
    position.entryPrice * (1 - 1 / position.leverage)
  else
    position.entryPrice * (1 + 1 / position.leverage)

end PositionManager

namespace HedgeStrategy

/-- src/src/strategies/HedgeStrategy.ts lines 1817-1827, `calculateLiquidationPrice`:
same formula, but `position.leverage || 10` defaults a zero (falsy) leverage to 10. -/
def calculateLiquidationPrice (position : Position) : ℚ :=
  let leverage := if position.leverage = 0 then 10 else position.leverage
  let marginRatio := 1 / leverage
  if position.side = Side.LONG then
    position.entryPrice * (1 - marginRatio)
  else
    position.entryPrice * (1 + marginRatio)

/-- src/src/strategies/HedgeStrategy.ts lines 1750-1756, `calculateProfitPercentage`:
signed unrealized profit of a position, in PERCENT units (×100). -/
def calculateProfitPercentage (position : Position) (currentPrice : ℚ) : ℚ :=
  if position.side = Side.LONG then
    ((currentPrice - position.entryPrice) / position.entryPrice) * 100
  else
    ((position.entryPrice - currentPrice) / position.entryPrice) * 100

/-- src/src/strategies/HedgeStrategy.ts lines 1761-1765, `calculateAbsoluteProfit`:
notional × fractional profit. -/
def calculateAbsoluteProfit (position : Position) (currentPrice : ℚ) : ℚ :=
  let notionalValue := position.size * position.entryPrice
  let profitPercentage := calculateProfitPercentage position currentPrice / 100
  notionalValue * profitPercentage

end HedgeStrategy

namespace ScalpStrategy

/-- src/unnamed/part_004 lines 430-436, `calculateProfitPercentage` (ScalpStrategy):
identical to the hedge strategy version, result in PERCENT units. -/
def calculateProfitPercentage (position : Position) (currentPrice : ℚ) : ℚ :=
  if position.side = Side.LONG then
    ((currentPrice - position.entryPrice) / position.entryPrice) * 100
  else
    ((position.entryPrice - currentPrice) / position.entryPrice) * 100

/-- src/unnamed/part_004 lines 170-175, `shouldCloseScalp`: close when the
profit-percentage value reaches `profitTarget = 0.0027`.  Note the units:
`calculateProfitPercentage` returns percent (0.27% ↦ 0.27), so the comparison
`scalpProfit >= 0.0027` triggers at 0.0027 percent, not at 0.27 percent. -/
def shouldCloseScalp (scalpPosition : Position) (currentPrice : ℚ) : Bool :=
  let profitTarget : ℚ := 27 / 10000
  let scalpProfit := calculateProfitPercentage scalpPosition currentPrice
  profitTarget ≤ scalpProfit

end ScalpStrategy

namespace PositionManager

/-- Position sizing config, src/unnamed/part_002 (`positionSizing` defaults). -/
structure PositionSizing where
  anchorPositionSize : ℚ := 1/5
  anchorHedgeSize : ℚ := 3/10
  opportunityPositionSize : ℚ := 1/5
  opportunityHedgeSize : ℚ := 3/10
deriving DecidableEq, Repr

/-- Leverage config, src/unnamed/part_002 (`leverageSettings` defaults). -/
structure LeverageSettings where
  anchorLeverage : ℚ := 10
  hedgeLeverage : ℚ := 5
  opportunityLeverage : ℚ := 10
deriving DecidableEq, Repr

/-- Exchange Gateway fill model for `binanceService.openPosition(side, size,
leverage)`: a position filled at the signal price with a fresh id and status
OPEN.  The role (`type`) is assigned afterwards by the lifecycle manager,
exactly as in the source; the fill uses ANCHOR as the gateway's placeholder. -/
def fillPosition (freshId : Nat) (side : Side) (size leverage price : ℚ) : Position :=
  { id := freshId, side := side, type := Role.ANCHOR,
    size := size, entryPrice := price, leverage := leverage, status := Status.OPEN }

/-- src/src/services/PositionManager.ts lines 64-81, `openAnchorPosition`:
open at the configured anchor size/leverage, tag the role, push. -/
def openAnchorPosition (sizing : PositionSizing) (lev : LeverageSettings)
    (freshId : Nat) (positions : List Position) (signal : TradingSignal) : List Position :=
  let position := fillPosition freshId signal.position sizing.anchorPositionSize lev.anchorLeverage signal.price
  positions ++ [{ position with type := Role.ANCHOR }]

/-- src/src/services/PositionManager.ts lines 151-168, `openOpportunityPosition`. -/
def openOpportunityPosition (sizing : PositionSizing) (lev : LeverageSettings)
    (freshId : Nat) (positions : List Position) (signal : TradingSignal) : List Position :=
  let position := fillPosition freshId signal.position sizing.opportunityPositionSize lev.opportunityLeverage signal.price
  positions ++ [{ position with type := Role.OPPORTUNITY }]

/-- src/src/services/PositionManager.ts lines 86-146, `openHedgePosition`.
Returns the new collection together with the take-profit price passed on to
`setHedgeTakeProfit` (`none` when no order is requested; the source guards with
JavaScript truthiness `if (takeProfitPrice)`, so a zero price is not sent). -/
def openHedgePosition (sizing : PositionSizing) (lev : LeverageSettings)
    (freshId : Nat) (positions : List Position) (signal : TradingSignal) :
    List Position × Option ℚ :=
  let hasAnchorPosition := positions.any fun pos => pos.type == Role.ANCHOR && pos.status == Status.OPEN
  let hasOpportunityPosition := positions.any fun pos => pos.type == Role.OPPORTUNITY && pos.status == Status.OPEN
  if hasAnchorPosition &&
      !(positions.any fun pos => pos.type == Role.ANCHOR_HEDGE && pos.status == Status.OPEN) then
    let takeProfitPrice :=
      (positions.find? fun pos => pos.type == Role.ANCHOR && pos.status == Status.OPEN).map
        calculateLiquidationPrice
    let position := fillPosition freshId signal.position sizing.anchorHedgeSize lev.hedgeLeverage signal.price
    let requested := match takeProfitPrice with
      | some tp => if tp = 0 then none else some tp
      | none => none
    (positions ++ [{ position with type := Role.ANCHOR_HEDGE }], requested)
  else if hasOpportunityPosition &&
      !(positions.any fun pos => pos.type == Role.OPPORTUNITY_HEDGE && pos.status == Status.OPEN) then
    let takeProfitPrice :=
      (positions.find? fun pos => pos.type == Role.OPPORTUNITY && pos.status == Status.OPEN).map
        calculateLiquidationPrice
    let position := fillPosition freshId signal.position sizing.opportunityHedgeSize lev.hedgeLeverage signal.price
    let requested := match takeProfitPrice with
      | some tp => if tp = 0 then none else some tp
      | none => none
    (positions ++ [{ position with type := Role.OPPORTUNITY_HEDGE }], requested)
  else
    (positions, none)

/-- Close the first position satisfying the predicate (the source looks the
position up with `find` and mutates its `status` in place). -/
def closeFirstMatch (pred : Position → Bool) : List Position → List Position
  | [] => []
  | p :: rest =>
    if pred p then { p with status := Status.CLOSED } :: rest
    else p :: closeFirstMatch pred rest

/-- src/src/services/PositionManager.ts lines 197-208, `findPositionToClose`
fused with lines 173-192 `closePosition`: an EXIT with side SHORT closes the
first OPEN hedge, any other EXIT finds nothing and leaves the state alone. -/
def closePosition (positions : List Position) (signal : TradingSignal) : List Position :=
  if signal.position == Side.SHORT then
    closeFirstMatch
      (fun pos => (pos.type == Role.ANCHOR_HEDGE || pos.type == Role.OPPORTUNITY_HEDGE) &&
        pos.status == Status.OPEN) positions
  else
    positions

/-- src/src/services/PositionManager.ts lines 40-59, `executeSignal`. -/
def executeSignal (sizing : PositionSizing) (lev : LeverageSettings)
    (freshId : Nat) (positions : List Position) (signal : TradingSignal) : List Position :=
  match signal.type with
  | SignalType.ENTRY => openAnchorPosition sizing lev freshId positions signal
  | SignalType.HEDGE => (openHedgePosition sizing lev freshId positions signal).1
  | SignalType.RE_ENTRY => openOpportunityPosition sizing lev freshId positions signal
  | SignalType.EXIT => closePosition positions signal

/-- src/src/services/PositionManager.ts lines 304-313, `canOpenPosition`:
refuses only a duplicate of the SAME role; other roles (and the default
branch, hit e.g. for SCALP) are not cross-checked. -/
def canOpenPosition (positions : List Position) (t : Role) : Bool :=
  match t with
  | Role.ANCHOR =>
    !(positions.any fun pos => pos.type == Role.ANCHOR && pos.status == Status.OPEN)
  | Role.OPPORTUNITY =>
    !(positions.any fun pos => pos.type == Role.OPPORTUNITY && pos.status == Status.OPEN)
  | _ => false

/-- src/src/services/PositionManager.ts lines 318-329, `canOpenHedge`. -/
def canOpenHedge (positions : List Position) (t : Role) : Bool :=
  match t with
  | Role.ANCHOR_HEDGE =>
    (positions.any fun pos => pos.type == Role.ANCHOR && pos.status == Status.OPEN) &&
    !(positions.any fun pos => pos.type == Role.ANCHOR_HEDGE && pos.status == Status.OPEN)
  | Role.OPPORTUNITY_HEDGE =>
    (positions.any fun pos => pos.type == Role.OPPORTUNITY && pos.status == Status.OPEN) &&
    !(positions.any fun pos => pos.type == Role.OPPORTUNITY_HEDGE && pos.status == Status.OPEN)
  | _ => false

/-- src/src/services/PositionManager.ts lines 213-240, `updatePositions`
(reconciliation with the Exchange Gateway's reported positions `binancePs`):
first merge each reported position over the local entry with the same id
(or append it), then KEEP ONLY positions whose id the exchange still reports. -/
def updatePositions (positions binancePs : List Position) : List Position :=
  let merged := binancePs.foldl
    (fun acc binancePos =>
      if acc.any fun pos => pos.id == binancePos.id then
        acc.map fun pos => if pos.id == binancePos.id then binancePos else pos
      else
        acc ++ [binancePos])
    positions
  merged.filter fun pos => binancePs.any fun bp => bp.id == pos.id

/-- src/src/TradingBot.ts lines 258-279, `canExecuteSignal`, for signals of the
hedge strategy (whose `reason` strings never contain the substring used to
route scalp entries, so the ANCHOR branch applies to ENTRY). -/
def canExecuteSignal (positions : List Position) (signal : TradingSignal) : Bool :=
  match signal.type with
  | SignalType.ENTRY => canOpenPosition positions Role.ANCHOR
  | SignalType.HEDGE =>
    canOpenHedge positions Role.ANCHOR_HEDGE ||
    canOpenHedge positions Role.OPPORTUNITY_HEDGE ||
    canOpenHedge positions Role.SCALP_HEDGE
  | SignalType.RE_ENTRY => canOpenPosition positions Role.OPPORTUNITY
  | SignalType.EXIT => true

/-- src/src/TradingBot.ts lines 231-253, `executeSignal` (the orchestration
step): gate through `canExecuteSignal`, then apply the lifecycle manager. -/
def step (sizing : PositionSizing) (lev : LeverageSettings)
    (freshId : Nat) (positions : List Position) (signal : TradingSignal) : List Position :=
  if canExecuteSignal positions signal then
    executeSignal sizing lev freshId positions signal
  else
    positions

/-- A primary role in the sense of the sequential-cycle invariant. -/
def isOpenPrimary (pos : Position) : Bool :=
  (pos.type == Role.ANCHOR || pos.type == Role.OPPORTUNITY || pos.type == Role.SCALP) &&
  pos.status == Status.OPEN

/-- Number of OPEN primary positions in the collection. -/
def countOpenPrimaries (positions : List Position) : Nat :=
  (positions.filter isOpenPrimary).length

end PositionManager

namespace DynamicLevels

/-- Level type, src/src/services/DynamicLevels.ts. -/
inductive LevelType
  | SUPPORT
  | RESISTANCE
deriving DecidableEq, Repr

/-- A learned level, src/src/services/DynamicLevels.ts lines 4-10
(`lastTouch` timestamp omitted: ambient wall-clock, read by no claim). -/
structure DynamicLevel where
  price : ℚ
  strength : ℚ
  touches : Nat
  type : LevelType
deriving DecidableEq, Repr

/-- src/src/services/DynamicLevels.ts line 14: `maxLevels = 10`. -/
def maxLevels : Nat := 10

/-- src/src/services/DynamicLevels.ts line 15: `minTouches = 2`. -/
def minTouches : Nat := 2

/-- src/src/services/DynamicLevels.ts line 16: `tolerance = 0.005`. -/
def tolerance : ℚ := 5/1000

/-- src/src/services/DynamicLevels.ts lines 135-140, `findNearbyLevel`. -/
def findNearbyLevel (levels : List DynamicLevel) (price : ℚ) (t : LevelType) :
    Option DynamicLevel :=
  levels.find? fun level =>
    level.type == t && decide (|level.price - price| / price ≤ tolerance)

/-- src/src/services/DynamicLevels.ts lines 52-72, the local-high scan of
`detectNewLevels`: index `i` (from 2 to length−3) is a local high when its
price strictly exceeds the two neighbours on each side.  The JavaScript
truthiness guard `current && prev1 && ...` skips windows containing a zero. -/
def localHighs : List ℚ → List ℚ
  | prev2 :: prev1 :: current :: next1 :: next2 :: rest =>
    (if prev2 ≠ 0 ∧ prev1 ≠ 0 ∧ current ≠ 0 ∧ next1 ≠ 0 ∧ next2 ≠ 0 ∧
        current > prev1 ∧ current > prev2 ∧ current > next1 ∧ current > next2 then
      [current]
    else []) ++ localHighs (prev1 :: current :: next1 :: next2 :: rest)
  | _ => []

/-- Symmetric local-low scan of `detectNewLevels` (same lines). -/
def localLows : List ℚ → List ℚ
  | prev2 :: prev1 :: current :: next1 :: next2 :: rest =>
    (if prev2 ≠ 0 ∧ prev1 ≠ 0 ∧ current ≠ 0 ∧ next1 ≠ 0 ∧ next2 ≠ 0 ∧
        current < prev1 ∧ current < prev2 ∧ current < next1 ∧ current < next2 then
      [current]
    else []) ++ localLows (prev1 :: current :: next1 :: next2 :: rest)
  | _ => []

/-- A freshly inserted level: initial strength 0.3, touches 1
(src/src/services/DynamicLevels.ts lines 78-84 and 92-98). -/
def newLevel (price : ℚ) (t : LevelType) : DynamicLevel :=
  { price := price, strength := 3/10, touches := 1, type := t }

/-- One candidate of the `highs.forEach`/`lows.forEach` loops of
`detectNewLevels` (lines 75-100): skip when a same-type level lies within
tolerance, otherwise push a new level. -/
def insertCandidate (levels : List DynamicLevel) (price : ℚ) (t : LevelType) :
    List DynamicLevel :=
  match findNearbyLevel levels price t with
  | some _ => levels
  | none => levels ++ [newLevel price t]

/-- src/src/services/DynamicLevels.ts lines 46-101, `detectNewLevels`
(the bar records are consumed only through their `price` field, so market data
is modelled as the price list). -/
def detectNewLevels (levels : List DynamicLevel) (prices : List ℚ) : List DynamicLevel :=
  let highs := localHighs prices
  let lows := localLows prices
  let levels := highs.foldl (fun acc high => insertCandidate acc high LevelType.RESISTANCE) levels
  lows.foldl (fun acc low => insertCandidate acc low LevelType.SUPPORT) levels

/-- Per-level body of `updateExistingLevels` (lines 111-129): a level within
tolerance of the current (last) price gets `touches` incremented and
`strength = min(1, 0.3 + (touches − 1) × 0.1)` recomputed with the new count. -/
def touchLevel (currentPrice : ℚ) (level : DynamicLevel) : DynamicLevel :=
  if |currentPrice - level.price| / level.price ≤ tolerance then
    { level with
      touches := level.touches + 1,
      strength := min 1 (3/10 + ((level.touches + 1 : ℚ) - 1) * (1/10)) }
  else level

/-- src/src/services/DynamicLevels.ts lines 106-130, `updateExistingLevels`. -/
def updateExistingLevels (levels : List DynamicLevel) (prices : List ℚ) : List DynamicLevel :=
  match prices.getLast? with
  | none => levels
  | some currentPrice => levels.map (touchLevel currentPrice)

/-- Stable insertion step for sorting by strength, descending (JavaScript
`Array.prototype.sort` is stable; equal strengths keep their order). -/
def insertByStrengthDesc (x : DynamicLevel) : List DynamicLevel → List DynamicLevel
  | [] => [x]
  | y :: ys => if x.strength ≤ y.strength then y :: insertByStrengthDesc x ys else x :: y :: ys

/-- Stable sort by strength, descending: `sort((a, b) => b.strength − a.strength)`. -/
def sortByStrengthDesc : List DynamicLevel → List DynamicLevel
  | [] => []
  | x :: xs => insertByStrengthDesc x (sortByStrengthDesc xs)

/-- src/src/services/DynamicLevels.ts lines 145-155, `cleanupWeakLevels`:
drop levels with `touches < minTouches`, then cap the set at `maxLevels`
keeping the strongest. -/
def cleanupWeakLevels (levels : List DynamicLevel) : List DynamicLevel :=
  let levels := levels.filter fun level => decide (minTouches ≤ level.touches)
  if maxLevels < levels.length then (sortByStrengthDesc levels).take maxLevels
  else levels

/-- src/src/services/DynamicLevels.ts lines 160-162, `sortLevelsByStrength`. -/
def sortLevelsByStrength (levels : List DynamicLevel) : List DynamicLevel :=
  sortByStrengthDesc levels

/-- src/src/services/DynamicLevels.ts lines 21-41, `updateLevels`: with fewer
than 20 bars the update is skipped; otherwise detect, reinforce, clean up,
sort. -/
def updateLevels (levels : List DynamicLevel) (prices : List ℚ) : List DynamicLevel :=
  if prices.length < 20 then levels
  else
    sortLevelsByStrength
      (cleanupWeakLevels (updateExistingLevels (detectNewLevels levels prices) prices))

/-- Stable insertion step for sorting by price, descending. -/
def insertByPriceDesc (x : DynamicLevel) : List DynamicLevel → List DynamicLevel
  | [] => [x]
  | y :: ys => if x.price ≤ y.price then y :: insertByPriceDesc x ys else x :: y :: ys

/-- Stable sort by price, descending. -/
def sortByPriceDesc : List DynamicLevel → List DynamicLevel
  | [] => []
  | x :: xs => insertByPriceDesc x (sortByPriceDesc xs)

/-- Stable insertion step for sorting by price, ascending. -/
def insertByPriceAsc (x : DynamicLevel) : List DynamicLevel → List DynamicLevel
  | [] => [x]
  | y :: ys => if y.price ≤ x.price then y :: insertByPriceAsc x ys else x :: y :: ys

/-- Stable sort by price, ascending. -/
def sortByPriceAsc : List DynamicLevel → List DynamicLevel
  | [] => []
  | x :: xs => insertByPriceAsc x (sortByPriceAsc xs)

/-- src/src/services/DynamicLevels.ts lines 167-171, `getSupportLevels`:
SUPPORT levels sorted by price descending. -/
def getSupportLevels (levels : List DynamicLevel) : List DynamicLevel :=
  sortByPriceDesc (levels.filter fun level => level.type == LevelType.SUPPORT)

/-- src/src/services/DynamicLevels.ts lines 176-180, `getResistanceLevels`:
RESISTANCE levels sorted by price ascending. -/
def getResistanceLevels (levels : List DynamicLevel) : List DynamicLevel :=
  sortByPriceAsc (levels.filter fun level => level.type == LevelType.RESISTANCE)

/-- src/src/services/DynamicLevels.ts lines 185-188, `getNearestSupport`:
first support strictly below the current price. -/
def getNearestSupport (levels : List DynamicLevel) (currentPrice : ℚ) : Option DynamicLevel :=
  (getSupportLevels levels).find? fun level => decide (level.price < currentPrice)

/-- src/src/services/DynamicLevels.ts lines 193-196, `getNearestResistance`:
first resistance strictly above the current price. -/
def getNearestResistance (levels : List DynamicLevel) (currentPrice : ℚ) : Option DynamicLevel :=
  (getResistanceLevels levels).find? fun level => decide (level.price > currentPrice)

end DynamicLevels

namespace HedgeStrategy

open DynamicLevels

/-- Static fallback levels, src/unnamed/part_002 (`supportResistanceLevels`
defaults); used by the strategy only when `useDynamicLevels` is false. -/
structure SupportResistanceLevels where
  resistance1 : ℚ := 431/500
  resistance2 : ℚ := 179/200
  resistance3 : ℚ := 23/25
  support1 : ℚ := 823/1000
  support2 : ℚ := 81/100
  support3 : ℚ := 39/50
deriving DecidableEq, Repr

/-- src/src/strategies/HedgeStrategy.ts lines 1398-1436, `shouldHedgeAnchor`
(the `indicators1h` parameter is unused in the source body and omitted).
For a LONG anchor the dynamic branch asks for the nearest support BELOW the
current price and then tests `currentPrice < nearestSupport.price`; for a
SHORT anchor symmetrically with the nearest resistance above. -/
def shouldHedgeAnchor (useDynamicLevels : Bool) (srl : SupportResistanceLevels)
    (levels : List DynamicLevel) (positions : List Position) (currentPrice : ℚ) : Bool :=
  match positions.find? fun pos => pos.type == Role.ANCHOR && pos.status == Status.OPEN with
  | none => false
  | some anchorPosition =>
    if positions.any fun pos => pos.type == Role.ANCHOR_HEDGE && pos.status == Status.OPEN then
      false
    else if anchorPosition.side = Side.LONG then
      if useDynamicLevels then
        match getNearestSupport levels currentPrice with
        | some nearestSupport => decide (currentPrice < nearestSupport.price)
        | none => false
      else decide (currentPrice < srl.support1)
    else
      if useDynamicLevels then
        match getNearestResistance levels currentPrice with
        | some nearestResistance => decide (currentPrice > nearestResistance.price)
        | none => false
      else decide (currentPrice > srl.resistance1)

/-- src/src/strategies/HedgeStrategy.ts lines 1459-1501, `shouldHedgeOpportunity`:
the dynamic branch compares against the SECOND support (resp. resistance) of
the sorted level list. -/
def shouldHedgeOpportunity (useDynamicLevels : Bool) (srl : SupportResistanceLevels)
    (levels : List DynamicLevel) (positions : List Position) (currentPrice : ℚ) : Bool :=
  match positions.find? fun pos => pos.type == Role.OPPORTUNITY && pos.status == Status.OPEN with
  | none => false
  | some opportunityPosition =>
    if positions.any fun pos => pos.type == Role.OPPORTUNITY_HEDGE && pos.status == Status.OPEN then
      false
    else if opportunityPosition.side = Side.LONG then
      if useDynamicLevels then
        match (getSupportLevels levels)[1]? with
        | some second => decide (currentPrice < second.price)
        | none => false
      else decide (currentPrice < srl.support2)
    else
      if useDynamicLevels then
        match (getResistanceLevels levels)[1]? with
        | some second => decide (currentPrice > second.price)
        | none => false
      else decide (currentPrice > srl.resistance2)

/-- src/src/strategies/HedgeStrategy.ts lines 1108-1153, `checkHedgeSignals`:
a HEDGE signal on the side opposite the open anchor when `shouldHedgeAnchor`
fires, then the same for the open opportunity position. -/
def checkHedgeSignals (useDynamicLevels : Bool) (srl : SupportResistanceLevels)
    (levels : List DynamicLevel) (positions : List Position) (currentPrice : ℚ) :
    List TradingSignal :=
  let anchorSignals :=
    match positions.find? fun pos => pos.type == Role.ANCHOR && pos.status == Status.OPEN with
    | some anchorPosition =>
      if shouldHedgeAnchor useDynamicLevels srl levels positions currentPrice then
        [{ type := SignalType.HEDGE,
           position := if anchorPosition.side = Side.LONG then Side.SHORT else Side.LONG,
           price := currentPrice }]
      else []
    | none => []
  let opportunitySignals :=
    match positions.find? fun pos => pos.type == Role.OPPORTUNITY && pos.status == Status.OPEN with
    | some opportunityPosition =>
      if shouldHedgeOpportunity useDynamicLevels srl levels positions currentPrice then
        [{ type := SignalType.HEDGE,
           position := if opportunityPosition.side = Side.LONG then Side.SHORT else Side.LONG,
           price := currentPrice }]
      else []
    | none => []
  anchorSignals ++ opportunitySignals

/-- src/src/strategies/HedgeStrategy.ts lines 1506-1519, `shouldCloseHedge`:
the hedge unwinds at break-even when price is back within 0.1% of its entry. -/
def shouldCloseHedge (hedgePosition : Position) (currentPrice : ℚ) : Bool :=
  let priceTolerance : ℚ := 1/1000
  if hedgePosition.type == Role.ANCHOR_HEDGE then
    decide (|currentPrice - hedgePosition.entryPrice| / hedgePosition.entryPrice ≤ priceTolerance)
  else if hedgePosition.type == Role.OPPORTUNITY_HEDGE then
    decide (|currentPrice - hedgePosition.entryPrice| / hedgePosition.entryPrice ≤ priceTolerance)
  else false

/-- src/src/strategies/HedgeStrategy.ts lines 1832-1836, `isHedgeTakeProfitHit`:
hedge profit has reached 2 percent. -/
def isHedgeTakeProfitHit (hedgePosition : Position) (currentPrice : ℚ) : Bool :=
  decide ((2 : ℚ) ≤ calculateProfitPercentage hedgePosition currentPrice)

/-- src/src/strategies/HedgeStrategy.ts lines 1841-1854, `isPriceReturningToSupport`:
only defined for LONG anchors; price within 0.5% of the nearest support below. -/
def isPriceReturningToSupport (levels : List DynamicLevel) (anchorPosition : Position)
    (currentPrice : ℚ) : Bool :=
  if anchorPosition.side = Side.LONG then
    match (getSupportLevels levels).find? fun level => decide (level.price < currentPrice) with
    | some nearestSupport =>
      decide (|currentPrice - nearestSupport.price| / nearestSupport.price ≤ 5/1000)
    | none => false
  else false

/-- src/src/strategies/HedgeStrategy.ts lines 1770-1812, `shouldExitHedgeForProfit`:
the guaranteed-profit branch (implemented for LONG anchors only: price at or
below liquidation × (1 + 1%) with hedge profit covering the anchor loss at
liquidation), else the double-profit branch. -/
def shouldExitHedgeForProfit (levels : List DynamicLevel)
    (anchorPosition hedgePosition : Position) (currentPrice : ℚ) : Bool :=
  let anchorLiquidationPrice := calculateLiquidationPrice anchorPosition
  let liquidationBuffer : ℚ := 1/100
  let liquidationThreshold := anchorLiquidationPrice * (1 + liquidationBuffer)
  let liquidationExit :=
    if anchorPosition.side = Side.LONG ∧ currentPrice ≤ liquidationThreshold then
      let anchorLoss := calculateAbsoluteProfit anchorPosition anchorLiquidationPrice
      let hedgeProfit := calculateAbsoluteProfit hedgePosition currentPrice
      decide (0 < hedgeProfit + anchorLoss)
    else false
  if liquidationExit then true
  else
    isHedgeTakeProfitHit hedgePosition currentPrice &&
    isPriceReturningToSupport levels anchorPosition currentPrice

/-- src/src/strategies/HedgeStrategy.ts lines 1524-1629, `shouldTakeProfitAnchor`.
The minimum-profit gate (`currentProfit < 0.02` returns false, where
`currentProfit` is in percent units) is embedded from the source; the
remainder consults the ComprehensiveLevels service, whose implementation file
is not among the repository sources, so it is abstracted as the uninterpreted
`oracle` parameter. -/
def shouldTakeProfitAnchor (oracle : Position → ℚ → Bool)
    (anchorPosition : Position) (currentPrice : ℚ) : Bool :=
  let profitThreshold : ℚ := 2/100
  let currentProfit := calculateProfitPercentage anchorPosition currentPrice
  if currentProfit < profitThreshold then false
  else oracle anchorPosition currentPrice

/-- src/src/strategies/HedgeStrategy.ts lines 1634-1745, `shouldTakeProfitOpportunity`:
same shape with gate threshold 0.015. -/
def shouldTakeProfitOpportunity (oracle : Position → ℚ → Bool)
    (opportunityPosition : Position) (currentPrice : ℚ) : Bool :=
  let profitThreshold : ℚ := 15/1000
  let currentProfit := calculateProfitPercentage opportunityPosition currentPrice
  if currentProfit < profitThreshold then false
  else oracle opportunityPosition currentPrice

/-- Body of the hedge loop of `checkExitSignals`
(src/src/strategies/HedgeStrategy.ts lines 1169-1204), hoisted into a named
function: pair the hedge with the open anchor and emit EXIT for both legs
under the liquidation-based rule, otherwise an EXIT for the hedge alone when
price is back near its entry. -/
def hedgeExitSignalsFor (levels : List DynamicLevel) (positions : List Position)
    (currentPrice : ℚ) (hedgePosition : Position) : List TradingSignal :=
  match positions.find? fun pos => pos.type == Role.ANCHOR && pos.status == Status.OPEN with
  | some anchorPosition =>
    if shouldExitHedgeForProfit levels anchorPosition hedgePosition currentPrice then
      [{ type := SignalType.EXIT, position := anchorPosition.side, price := currentPrice },
       { type := SignalType.EXIT, position := hedgePosition.side, price := currentPrice }]
    else if shouldCloseHedge hedgePosition currentPrice then
      [{ type := SignalType.EXIT, position := hedgePosition.side, price := currentPrice }]
    else []
  | none =>
    if shouldCloseHedge hedgePosition currentPrice then
      [{ type := SignalType.EXIT, position := hedgePosition.side, price := currentPrice }]
    else []

/-- src/src/strategies/HedgeStrategy.ts lines 1158-1243, `checkExitSignals`:
each open hedge paired with the open anchor emits EXIT for both legs under the
liquidation-based rule, otherwise an EXIT for itself near its entry (loop body
hoisted into `hedgeExitSignalsFor`); then profit-taking EXITs for open anchors
and opportunities (levels-dependent parts behind the oracles, see
`shouldTakeProfitAnchor`). -/
def checkExitSignals (oracleA oracleO : Position → ℚ → Bool)
    (levels : List DynamicLevel) (positions : List Position) (currentPrice : ℚ) :
    List TradingSignal :=
  let hedgePositions := positions.filter fun pos =>
    (pos.type == Role.ANCHOR_HEDGE || pos.type == Role.OPPORTUNITY_HEDGE) &&
    pos.status == Status.OPEN
  let hedgeSignals := hedgePositions.foldr
    (fun hedgePosition acc => hedgeExitSignalsFor levels positions currentPrice hedgePosition ++ acc)
    []
  let anchorPositions := positions.filter fun pos =>
    pos.type == Role.ANCHOR && pos.status == Status.OPEN
  let anchorSignals := anchorPositions.foldr
    (fun anchorPosition acc =>
      (if shouldTakeProfitAnchor oracleA anchorPosition currentPrice then
        [{ type := SignalType.EXIT, position := anchorPosition.side, price := currentPrice }]
      else []) ++ acc)
    []
  let opportunityPositions := positions.filter fun pos =>
    pos.type == Role.OPPORTUNITY && pos.status == Status.OPEN
  let opportunitySignals := opportunityPositions.foldr
    (fun opportunityPosition acc =>
      (if shouldTakeProfitOpportunity oracleO opportunityPosition currentPrice then
        [{ type := SignalType.EXIT, position := opportunityPosition.side, price := currentPrice }]
      else []) ++ acc)
    []
  hedgeSignals ++ anchorSignals ++ opportunitySignals

/-- Core test of `detectPricePeak` on the trimmed sample buffer: at least 3
samples, whose last three `[first, second, third]` (taken here from the
reversed list) show a strict rise then fall with the current price at least
0.3% below the middle sample. -/
def peakCore (samples : List ℚ) (currentPrice : ℚ) : Bool :=
  if samples.length < 3 then false
  else
    match samples.reverse with
    | third :: second :: first :: _ =>
      (decide (second > first) && decide (third < second)) &&
      decide ((second - currentPrice) / second ≥ 3/1000)
    | _ => false

/-- src/src/strategies/HedgeStrategy.ts lines 2000-2052, `detectPricePeak`,
as a pure function of the per-position price history buffer and the freshly
sampled current price: push, trim to the last 10 (a single `shift()` of the
oldest sample), then `peakCore`. -/
def detectPricePeak (history : List ℚ) (currentPrice : ℚ) : Bool :=
  let pushed := history ++ [currentPrice]
  let trimmed := if 10 < pushed.length then pushed.tail else pushed
  peakCore trimmed currentPrice

/-- Core test of `detectPriceTrough`: mirror image of `peakCore`. -/
def troughCore (samples : List ℚ) (currentPrice : ℚ) : Bool :=
  if samples.length < 3 then false
  else
    match samples.reverse with
    | third :: second :: first :: _ =>
      (decide (second < first) && decide (third > second)) &&
      decide ((currentPrice - second) / second ≥ 3/1000)
    | _ => false

/-- src/src/strategies/HedgeStrategy.ts lines 2058-2110, `detectPriceTrough`:
mirror image of `detectPricePeak`. -/
def detectPriceTrough (history : List ℚ) (currentPrice : ℚ) : Bool :=
  let pushed := history ++ [currentPrice]
  let trimmed := if 10 < pushed.length then pushed.tail else pushed
  troughCore trimmed currentPrice

end HedgeStrategy

/-! Concrete instances used by the theorems below. -/

/-- ENTRY signal of a LONG anchor at price 0.86. -/
def c1sig1 : TradingSignal := { type := SignalType.ENTRY, position := Side.LONG, price := 43/50 }

/-- RE_ENTRY (opportunity) signal at price 0.80. -/
def c1sig2 : TradingSignal := { type := SignalType.RE_ENTRY, position := Side.LONG, price := 4/5 }

/-- State after the gated execution of `c1sig1` from the empty collection. -/
def c1s1 : List Position := PositionManager.step {} {} 1 [] c1sig1

/-- State after the gated execution of `c1sig2` from `c1s1`. -/
def c1s2 : List Position := PositionManager.step {} {} 2 c1s1 c1sig2

/-- An OPEN LONG anchor: entry 0.86, leverage 10. -/
def c2anchor : Position :=
  { id := 1, side := Side.LONG, type := Role.ANCHOR, size := 1/5, entryPrice := 43/50,
    leverage := 10, status := Status.OPEN }

/-- One learned support level at 0.85 (touches 2, strength 0.4). -/
def c2levels : List DynamicLevels.DynamicLevel :=
  [{ price := 17/20, strength := 2/5, touches := 2, type := DynamicLevels.LevelType.SUPPORT }]

/-- HEDGE signal (SHORT) at price 0.823 against `c2anchor`. -/
def c3sig : TradingSignal := { type := SignalType.HEDGE, position := Side.SHORT, price := 823/1000 }

/-- An OPEN LONG opportunity: entry 0.80, leverage 10, so liquidation 0.72. -/
def c3opp : Position :=
  { id := 1, side := Side.LONG, type := Role.OPPORTUNITY, size := 1/5, entryPrice := 4/5,
    leverage := 10, status := Status.OPEN }

/-- An OPEN SHORT anchor: entry 1, leverage 10, so liquidation at 1.1. -/
def c4anchor : Position :=
  { id := 1, side := Side.SHORT, type := Role.ANCHOR, size := 1, entryPrice := 1,
    leverage := 10, status := Status.OPEN }

/-- Its OPEN opposite-side (LONG) hedge: entry 1.05, size 10. -/
def c4hedge : Position :=
  { id := 2, side := Side.LONG, type := Role.ANCHOR_HEDGE, size := 10, entryPrice := 21/20,
    leverage := 5, status := Status.OPEN }

/-- An OPEN LONG anchor for the C4 witness: entry 1, leverage 10, liquidation 0.9. -/
def c4walong : Position :=
  { id := 1, side := Side.LONG, type := Role.ANCHOR, size := 1, entryPrice := 1,
    leverage := 10, status := Status.OPEN }

/-- Its OPEN SHORT hedge for the C4 witness: entry 1, size 10. -/
def c4whedge : Position :=
  { id := 2, side := Side.SHORT, type := Role.ANCHOR_HEDGE, size := 10, entryPrice := 1,
    leverage := 5, status := Status.OPEN }

/-- A LONG anchor with leverage 1: the liquidation formula yields exactly 0. -/
def c5position : Position :=
  { id := 1, side := Side.LONG, type := Role.ANCHOR, size := 1/5, entryPrice := 1,
    leverage := 1, status := Status.OPEN }

/-- A SHORT position for the C5 witness: entry 2, leverage 10. -/
def c5short : Position :=
  { id := 2, side := Side.SHORT, type := Role.ANCHOR, size := 1/5, entryPrice := 2,
    leverage := 10, status := Status.OPEN }

/-- A CLOSED anchor position retained in the local collection. -/
def c6closed : Position :=
  { id := 7, side := Side.LONG, type := Role.ANCHOR, size := 1/5, entryPrice := 43/50,
    leverage := 10, status := Status.CLOSED }

/-- An OPEN LONG scalp position with entry price 1. -/
def c7scalp : Position :=
  { id := 3, side := Side.LONG, type := Role.SCALP, size := 1/10, entryPrice := 1,
    leverage := 15, status := Status.OPEN }

/-- A learned resistance at 100 with 2 touches and strength 0.4. -/
def c9level : DynamicLevels.DynamicLevel :=
  { price := 100, strength := 2/5, touches := 2, type := DynamicLevels.LevelType.RESISTANCE }

/-- Twenty bars whose only local extreme is a high at 100 (exactly the price of
`c9level`), with the last bar far away from every level. -/
def c9prices : List ℚ :=
  [90, 95, 100, 95, 90, 85, 80, 75, 70, 65, 60, 55, 50, 45, 40, 35, 30, 25, 20, 15]

/-- The retained-set invariant claimed for the level learner: at most
`maxLevels` levels, each with at least `minTouches` touches. -/
def levelInvariant (levels : List DynamicLevels.DynamicLevel) : Prop :=
  levels.length ≤ DynamicLevels.maxLevels ∧
  ∀ l ∈ levels, DynamicLevels.minTouches ≤ l.touches

section

attribute [local semireducible] Rat.mul Rat.add Rat.sub Rat.inv

/-- Closing a position by predicate preserves every id in the collection. -/
theorem closeFirstMatch_id (pred : Position → Bool) :
    ∀ (positions : List Position), ∀ p ∈ positions,
      ∃ q ∈ PositionManager.closeFirstMatch pred positions, q.id = p.id := by
  intro positions
  induction positions with
  | nil => intro p hp; cases hp
  | cons head tail ih =>
    intro p hp
    rcases List.mem_cons.mp hp with h | h
    · subst h
      by_cases hpred : pred p = true
      · exact ⟨{ p with status := Status.CLOSED },
          by simp [PositionManager.closeFirstMatch, hpred], rfl⟩
      · exact ⟨p, by simp [PositionManager.closeFirstMatch, hpred], rfl⟩
    · by_cases hpred : pred head = true
      · exact ⟨p, by simp [PositionManager.closeFirstMatch, hpred, h], rfl⟩
      · obtain ⟨q, hq, hid⟩ := ih p h
        exact ⟨q, by simp [PositionManager.closeFirstMatch, hpred, hq], hid⟩

/-- The hedge opener either appends one position or leaves the list alone. -/
theorem openHedgePosition_fst (sizing : PositionManager.PositionSizing)
    (lev : PositionManager.LeverageSettings) (freshId : Nat)
    (positions : List Position) (signal : TradingSignal) :
    ∃ appended, (PositionManager.openHedgePosition sizing lev freshId positions signal).1 =
      positions ++ appended := by
  simp only [PositionManager.openHedgePosition]
  split
  · exact ⟨_, rfl⟩
  · split
    · exact ⟨_, rfl⟩
    · exact ⟨[], (List.append_nil positions).symm⟩

/-- C1 (counterexample): starting from the empty collection, a gated ENTRY
followed by a gated RE_ENTRY leaves TWO primary positions (an ANCHOR and an
OPPORTUNITY) with status OPEN at once, and the refusal check
`canOpenPosition OPPORTUNITY` answers true (not refused) while the ANCHOR is
already OPEN. -/
theorem c1_counterexample :
    (c1s1.any fun pos => pos.type == Role.ANCHOR && pos.status == Status.OPEN) = true ∧
    PositionManager.canOpenPosition c1s1 Role.OPPORTUNITY = true ∧
    PositionManager.countOpenPrimaries c1s2 = 2 := by decide

/-- C1 (amended): the lifecycle manager refuses only a second position of the
SAME primary role: `canOpenPosition ANCHOR` is false while an ANCHOR is OPEN,
and `canOpenPosition OPPORTUNITY` is false while an OPPORTUNITY is OPEN;
distinct primary roles are not mutually excluded. -/
theorem c1_amended (positions : List Position) :
    ((positions.any fun pos => pos.type == Role.ANCHOR && pos.status == Status.OPEN) = true →
      PositionManager.canOpenPosition positions Role.ANCHOR = false) ∧
    ((positions.any fun pos => pos.type == Role.OPPORTUNITY && pos.status == Status.OPEN) = true →
      PositionManager.canOpenPosition positions Role.OPPORTUNITY = false) := by
  constructor <;> intro h <;> simp [PositionManager.canOpenPosition, h]

/-- C1 (witness): the amended refusal evaluated at the reachable state `c1s1`. -/
theorem c1_amended_witness :
    (c1s1.any fun pos => pos.type == Role.ANCHOR && pos.status == Status.OPEN) = true ∧
    PositionManager.canOpenPosition c1s1 Role.ANCHOR = false :=
  ⟨by decide, (c1_amended c1s1).1 (by decide)⟩

/-- C3 (counterexample): for the anchor LONG at 0.86 with leverage 10
(liquidation L = 0.774) and an accepted HEDGE signal at 0.823, the take-profit
price requested from the Exchange Gateway is exactly L = 0.774 — not
L × (1 ± buffer) for any nonzero buffer, and not strictly between the hedge's
entry price 0.823 and L. -/
theorem c3_counterexample :
    (PositionManager.openHedgePosition {} {} 2 [c2anchor] c3sig).2 = some (387/500) ∧
    PositionManager.calculateLiquidationPrice c2anchor = 387/500 ∧
    ¬(min ((823 : ℚ)/1000) (387/500) < 387/500 ∧
      (387/500 : ℚ) < max ((823 : ℚ)/1000) (387/500)) ∧
    (387/500 : ℚ) ≠ 387/500 * (1 + 1/50) ∧
    (387/500 : ℚ) ≠ 387/500 * (1 - 1/50) := by decide

/-- C3 (amended): for EVERY accepted HEDGE signal paired with an open primary,
the take-profit price requested for the new hedge equals that primary's
liquidation price EXACTLY (no buffer scaling) — in the anchor-paired branch
(an ANCHOR is OPEN and no anchor hedge is) it is the anchor's liquidation
price, and in the opportunity-paired branch (the anchor branch does not apply,
an OPPORTUNITY is OPEN and no opportunity hedge is) it is the opportunity's
liquidation price; the nonzero-price hypotheses only discharge the source's
JavaScript truthiness guard `if (takeProfitPrice)`. -/
theorem c3_amended (sizing : PositionManager.PositionSizing)
    (lev : PositionManager.LeverageSettings) (freshId : Nat)
    (positions : List Position) (signal : TradingSignal) :
    (∀ anchor : Position,
      (positions.find? fun pos => pos.type == Role.ANCHOR && pos.status == Status.OPEN) =
        some anchor →
      (positions.any fun pos =>
        pos.type == Role.ANCHOR_HEDGE && pos.status == Status.OPEN) = false →
      PositionManager.calculateLiquidationPrice anchor ≠ 0 →
      (PositionManager.openHedgePosition sizing lev freshId positions signal).2 =
        some (PositionManager.calculateLiquidationPrice anchor)) ∧
    (∀ opportunity : Position,
      ((positions.any fun pos => pos.type == Role.ANCHOR && pos.status == Status.OPEN) &&
        !(positions.any fun pos =>
          pos.type == Role.ANCHOR_HEDGE && pos.status == Status.OPEN)) = false →
      (positions.find? fun pos => pos.type == Role.OPPORTUNITY && pos.status == Status.OPEN) =
        some opportunity →
      (positions.any fun pos =>
        pos.type == Role.OPPORTUNITY_HEDGE && pos.status == Status.OPEN) = false →
      PositionManager.calculateLiquidationPrice opportunity ≠ 0 →
      (PositionManager.openHedgePosition sizing lev freshId positions signal).2 =
        some (PositionManager.calculateLiquidationPrice opportunity)) := by
  constructor
  · intro anchor hfind hnoAH hL
    have hpa := List.find?_some hfind
    have hA : (positions.any fun pos =>
        pos.type == Role.ANCHOR && pos.status == Status.OPEN) = true := by
      rw [List.any_eq_true]
      exact ⟨anchor, List.mem_of_find?_eq_some hfind, hpa⟩
    unfold PositionManager.openHedgePosition
    simp [hA, hnoAH, hfind, hL]
  · intro opportunity hAbranch hfind hnoOH hL
    have hpa := List.find?_some hfind
    have hO : (positions.any fun pos =>
        pos.type == Role.OPPORTUNITY && pos.status == Status.OPEN) = true := by
      rw [List.any_eq_true]
      exact ⟨opportunity, List.mem_of_find?_eq_some hfind, hpa⟩
    unfold PositionManager.openHedgePosition
    simp [hAbranch, hO, hnoOH, hfind, hL]

/-- C3 (witness): both amended branches evaluated concretely — the hedge
paired with the open anchor, and the hedge paired with the open opportunity
when no anchor is open. -/
theorem c3_amended_witness :
    (PositionManager.openHedgePosition {} {} 2 [c2anchor] c3sig).2 =
      some (PositionManager.calculateLiquidationPrice c2anchor) ∧
    (PositionManager.openHedgePosition {} {} 2 [c3opp] c3sig).2 =
      some (PositionManager.calculateLiquidationPrice c3opp) ∧
    PositionManager.calculateLiquidationPrice c3opp = 18/25 :=
  ⟨(c3_amended {} {} 2 [c2anchor] c3sig).1 c2anchor (by decide) (by decide) (by decide),
   (c3_amended {} {} 2 [c3opp] c3sig).2 c3opp (by decide) (by decide) (by decide) (by decide),
   by decide⟩

/-- C5 (counterexample): at entry price 1 and leverage 1 (both > 0) the LONG
liquidation price computed by the code is 0, which is NOT strictly between 0
and the entry price, refuting the claimed bound for all leverage > 0. -/
theorem c5_counterexample :
    (0 : ℚ) < c5position.entryPrice ∧ (0 : ℚ) < c5position.leverage ∧
    c5position.side = Side.LONG ∧
    PositionManager.calculateLiquidationPrice c5position = 0 ∧
    ¬(0 < PositionManager.calculateLiquidationPrice c5position) := by decide

/-- C5 (amended): for entry price E > 0 and leverage L > 0 the computed
liquidation price is E×(1−1/L) for LONG and E×(1+1/L) for SHORT; the LONG
value is strictly between 0 and E provided L > 1, the SHORT value exceeds E
for every L > 0, and the strategy's variant of the formula agrees. -/
theorem c5_amended (p : Position) (hE : 0 < p.entryPrice) (hL : 0 < p.leverage) :
    (p.side = Side.LONG →
      PositionManager.calculateLiquidationPrice p = p.entryPrice * (1 - 1 / p.leverage)) ∧
    (p.side = Side.SHORT →
      PositionManager.calculateLiquidationPrice p = p.entryPrice * (1 + 1 / p.leverage)) ∧
    (p.side = Side.LONG → 1 < p.leverage →
      0 < PositionManager.calculateLiquidationPrice p ∧
      PositionManager.calculateLiquidationPrice p < p.entryPrice) ∧
    (p.side = Side.SHORT → p.entryPrice < PositionManager.calculateLiquidationPrice p) ∧
    HedgeStrategy.calculateLiquidationPrice p = PositionManager.calculateLiquidationPrice p := by
  have hinv : 0 < 1 / p.leverage := by positivity
  refine ⟨?_, ?_, ?_, ?_, ?_⟩
  · intro hside; simp [PositionManager.calculateLiquidationPrice, hside]
  · intro hside; simp [PositionManager.calculateLiquidationPrice, hside]
  · intro hside hlev
    have h1 : 1 / p.leverage < 1 := by rw [div_lt_one hL]; exact hlev
    constructor
    · unfold PositionManager.calculateLiquidationPrice
      rw [if_pos hside]
      exact mul_pos hE (by linarith)
    · unfold PositionManager.calculateLiquidationPrice
      rw [if_pos hside]
      nlinarith [mul_pos hE hinv]
  · intro hside
    unfold PositionManager.calculateLiquidationPrice
    rw [if_neg (by simp [hside])]
    nlinarith [mul_pos hE hinv]
  · have hne : p.leverage ≠ 0 := ne_of_gt hL
    simp [HedgeStrategy.calculateLiquidationPrice, PositionManager.calculateLiquidationPrice, hne]

/-- C5 (witness): the amended bounds at a SHORT with entry 2 and leverage 10. -/
theorem c5_amended_witness :
    (0 : ℚ) < c5short.entryPrice ∧ (0 : ℚ) < c5short.leverage ∧
    c5short.entryPrice < PositionManager.calculateLiquidationPrice c5short :=
  ⟨by decide, by decide, (c5_amended c5short (by decide) (by decide)).2.2.2.1 (by decide)⟩

/-- C6 (counterexample): a CLOSED position still in the local collection is
DELETED by a reconciliation update in which the exchange no longer reports it,
refuting "closed positions are retained forever, never deleted". -/
theorem c6_counterexample :
    c6closed.status = Status.CLOSED ∧
    PositionManager.updatePositions [c6closed] [] = [] := by decide

/-- C6 (amended): executing signals never deletes a position (a CLOSED
position stays in the collection, under its id), but the reconciliation update
keeps ONLY positions whose id the exchange still reports — so closed positions
are retained exactly until the next reconciliation that drops them. -/
theorem c6_amended :
    (∀ (sizing : PositionManager.PositionSizing) (lev : PositionManager.LeverageSettings)
        (freshId : Nat) (positions : List Position) (signal : TradingSignal),
      ∀ p ∈ positions,
        ∃ q ∈ PositionManager.executeSignal sizing lev freshId positions signal, q.id = p.id) ∧
    (∀ (positions binancePs : List Position),
      ∀ p ∈ PositionManager.updatePositions positions binancePs,
        (binancePs.any fun bp => bp.id == p.id) = true) := by
  constructor
  · intro sizing lev freshId positions signal p hp
    cases signal with
    | mk stype sside sprice =>
      cases stype with
      | ENTRY =>
        exact ⟨p, by simp [PositionManager.executeSignal, PositionManager.openAnchorPosition, hp], rfl⟩
      | HEDGE =>
        obtain ⟨appended, happ⟩ :=
          openHedgePosition_fst sizing lev freshId positions ⟨SignalType.HEDGE, sside, sprice⟩
        exact ⟨p, by simp [PositionManager.executeSignal, happ, hp], rfl⟩
      | RE_ENTRY =>
        exact ⟨p, by simp [PositionManager.executeSignal, PositionManager.openOpportunityPosition, hp], rfl⟩
      | EXIT =>
        by_cases hS : sside == Side.SHORT
        · obtain ⟨q, hq, hid⟩ := closeFirstMatch_id
            (fun pos => (pos.type == Role.ANCHOR_HEDGE || pos.type == Role.OPPORTUNITY_HEDGE) &&
              pos.status == Status.OPEN) positions p hp
          exact ⟨q, by simpa [PositionManager.executeSignal, PositionManager.closePosition, hS] using hq, hid⟩
        · exact ⟨p, by simp [PositionManager.executeSignal, PositionManager.closePosition,
            Bool.eq_false_iff.mpr hS, hp], rfl⟩
  · intro positions binancePs p hp
    exact (List.mem_filter.mp hp).2

/-- C6 (witness): both amended parts at concrete inputs. -/
theorem c6_amended_witness :
    (∃ q ∈ PositionManager.executeSignal {} {} 2 [c6closed] c1sig1, q.id = c6closed.id) ∧
    ([c2anchor].any fun bp => bp.id == c2anchor.id) = true :=
  ⟨c6_amended.1 {} {} 2 [c6closed] c1sig1 c6closed (by decide),
   c6_amended.2 [c6closed] [c2anchor] c2anchor (by decide)⟩

/-- C7: the scalp profit target compares a PERCENT-valued profit against the
literal 0.0027, so the scalp position is closed already at a 0.01% unrealized
profit — far below the documented 0.27% threshold ("0.27% profit target" in
the source comment), refuting "below 0.27% the scalp is not closed". -/
theorem c7_theorem :
    ScalpStrategy.shouldCloseScalp c7scalp (10001/10000) = true ∧
    ScalpStrategy.calculateProfitPercentage c7scalp (10001/10000) = 1/100 ∧
    (1/100 : ℚ) < 27/100 := by decide

/-- C2: with dynamic (learned) levels in use — the default — the anchor hedge
trigger can NEVER fire: `shouldHedgeAnchor` recomputes the "nearest" level
relative to the current price and then asks for the price to be on the other
side of it, an unsatisfiable condition; in particular, for an OPEN LONG anchor
at 0.86 with a learned support at 0.85 and the price at 0.84 (below that
support, i.e. past the protective level), no HEDGE signal is emitted,
contradicting the claim. -/
theorem c2_theorem :
    (∀ (srl : HedgeStrategy.SupportResistanceLevels) (levels : List DynamicLevels.DynamicLevel)
        (positions : List Position) (currentPrice : ℚ),
      HedgeStrategy.shouldHedgeAnchor true srl levels positions currentPrice = false) ∧
    ((21/25 : ℚ) < 17/20 ∧
      HedgeStrategy.checkHedgeSignals true {} c2levels [c2anchor] (21/25) = []) := by
  constructor
  · intro srl levels positions currentPrice
    unfold HedgeStrategy.shouldHedgeAnchor
    cases hfind : positions.find? fun pos => pos.type == Role.ANCHOR && pos.status == Status.OPEN with
    | none => rfl
    | some anchor =>
      by_cases hAH :
          (positions.any fun pos => pos.type == Role.ANCHOR_HEDGE && pos.status == Status.OPEN) = true
      · simp [hAH]
      · by_cases hside : anchor.side = Side.LONG
        · cases hns : DynamicLevels.getNearestSupport levels currentPrice with
          | none => simp [hAH, hside, hns]
          | some ns =>
            have h2 := hns
            unfold DynamicLevels.getNearestSupport at h2
            have h3 := List.find?_some h2
            have hlt : ns.price < currentPrice := by simpa using h3
            simp [hAH, hside, hns, lt_asymm hlt]
        · cases hnr : DynamicLevels.getNearestResistance levels currentPrice with
          | none => simp [hAH, hside, hnr]
          | some nr =>
            have h2 := hnr
            unfold DynamicLevels.getNearestResistance at h2
            have h3 := List.find?_some h2
            have hgt : currentPrice < nr.price := by simpa using h3
            simp [hAH, hside, hnr, lt_asymm hgt]
  · exact ⟨by decide, by decide⟩

/-- Elements contributed by any list member survive a fold that appends. -/
theorem mem_foldr_append {α β : Type} (f : α → List β) :
    ∀ (l : List α) (x : α), x ∈ l → ∀ b ∈ f x,
      b ∈ l.foldr (fun y acc => f y ++ acc) [] := by
  intro l
  induction l with
  | nil => intro x hx; cases hx
  | cons hd tl ih =>
    intro x hx b hb
    rcases List.mem_cons.mp hx with h | h
    · subst h; exact List.mem_append_left _ hb
    · exact List.mem_append_right _ (ih x h b hb)

/-- C4 (counterexample): a SHORT primary at entry 1 with leverage 10
(liquidation 1.1), an open opposite-side LONG hedge, the current price exactly
at the liquidation price (within the 1% buffer), and hedge profit exceeding
the primary's loss at liquidation — yet the evaluation emits NO exit signal at
all: the liquidation-based exit is implemented only for LONG primaries. -/
theorem c4_counterexample :
    c4anchor.side = Side.SHORT ∧ c4anchor.status = Status.OPEN ∧
    c4hedge.side = Side.LONG ∧ c4hedge.status = Status.OPEN ∧
    HedgeStrategy.calculateLiquidationPrice c4anchor = 11/10 ∧
    |(11/10 : ℚ) - 11/10| ≤ (1/100) * (11/10) ∧
    0 < HedgeStrategy.calculateAbsoluteProfit c4hedge (11/10) +
        HedgeStrategy.calculateAbsoluteProfit c4anchor
          (HedgeStrategy.calculateLiquidationPrice c4anchor) ∧
    HedgeStrategy.checkExitSignals (fun _ _ => true) (fun _ _ => true) [] [c4anchor, c4hedge]
      (11/10) = [] := by decide

/-- C4 (amended): for a LONG primary with an open hedge, when the price is at
or below liquidation × (1 + buffer) and hedge profit plus primary loss-at-
liquidation is positive, EXIT signals for BOTH legs are emitted; for a SHORT
primary the liquidation-based exit rule never fires. -/
theorem c4_amended :
    (∀ (oracleA oracleO : Position → ℚ → Bool) (levels : List DynamicLevels.DynamicLevel)
        (positions : List Position) (anchor hedge : Position) (currentPrice : ℚ),
      (positions.find? fun pos => pos.type == Role.ANCHOR && pos.status == Status.OPEN) =
        some anchor →
      anchor.side = Side.LONG →
      hedge ∈ positions →
      (hedge.type == Role.ANCHOR_HEDGE || hedge.type == Role.OPPORTUNITY_HEDGE) = true →
      hedge.status = Status.OPEN →
      currentPrice ≤ HedgeStrategy.calculateLiquidationPrice anchor * (1 + 1/100) →
      0 < HedgeStrategy.calculateAbsoluteProfit hedge currentPrice +
          HedgeStrategy.calculateAbsoluteProfit anchor
            (HedgeStrategy.calculateLiquidationPrice anchor) →
      ({ type := SignalType.EXIT, position := anchor.side, price := currentPrice } :
          TradingSignal) ∈
        HedgeStrategy.checkExitSignals oracleA oracleO levels positions currentPrice ∧
      ({ type := SignalType.EXIT, position := hedge.side, price := currentPrice } :
          TradingSignal) ∈
        HedgeStrategy.checkExitSignals oracleA oracleO levels positions currentPrice) ∧
    (∀ (levels : List DynamicLevels.DynamicLevel) (anchor hedge : Position) (currentPrice : ℚ),
      anchor.side = Side.SHORT →
      HedgeStrategy.shouldExitHedgeForProfit levels anchor hedge currentPrice = false) := by
  constructor
  · intro oracleA oracleO levels positions anchor hedge currentPrice hfind hside hmem htype
      hstatus hle hnet
    have hinner : (if anchor.side = Side.LONG ∧
        currentPrice ≤ HedgeStrategy.calculateLiquidationPrice anchor * (1 + 1/100) then
          decide (0 < HedgeStrategy.calculateAbsoluteProfit hedge currentPrice +
            HedgeStrategy.calculateAbsoluteProfit anchor
              (HedgeStrategy.calculateLiquidationPrice anchor))
        else false) = true := by
      rw [if_pos ⟨hside, hle⟩]; exact decide_eq_true hnet
    have hcond : HedgeStrategy.shouldExitHedgeForProfit levels anchor hedge currentPrice = true := by
      simp only [HedgeStrategy.shouldExitHedgeForProfit]
      rw [hinner]
      rfl
    have hf : HedgeStrategy.hedgeExitSignalsFor levels positions currentPrice hedge =
        [{ type := SignalType.EXIT, position := anchor.side, price := currentPrice },
         { type := SignalType.EXIT, position := hedge.side, price := currentPrice }] := by
      simp [HedgeStrategy.hedgeExitSignalsFor, hfind, hcond]
    have hhmem : hedge ∈ positions.filter fun pos =>
        (pos.type == Role.ANCHOR_HEDGE || pos.type == Role.OPPORTUNITY_HEDGE) &&
        pos.status == Status.OPEN := by
      rw [List.mem_filter]
      exact ⟨hmem, by simp [htype, hstatus]⟩
    constructor
    · simp only [HedgeStrategy.checkExitSignals]
      refine List.mem_append_left _ (List.mem_append_left _ ?_)
      exact mem_foldr_append _ _ hedge hhmem _ (by rw [hf]; exact List.mem_cons_self _ _)
    · simp only [HedgeStrategy.checkExitSignals]
      refine List.mem_append_left _ (List.mem_append_left _ ?_)
      refine mem_foldr_append _ _ hedge hhmem _ ?_
      rw [hf]
      exact List.mem_cons_of_mem _ (List.mem_cons_self _ _)
  · intro levels anchor hedge currentPrice hside
    simp [HedgeStrategy.shouldExitHedgeForProfit, HedgeStrategy.isPriceReturningToSupport, hside]

/-- C4 (witness): the amended LONG-side rule evaluated at a concrete state. -/
theorem c4_amended_witness :
    ({ type := SignalType.EXIT, position := c4walong.side, price := (9/10 : ℚ) } :
        TradingSignal) ∈
      HedgeStrategy.checkExitSignals (fun _ _ => false) (fun _ _ => false) []
        [c4walong, c4whedge] (9/10) ∧
    ({ type := SignalType.EXIT, position := c4whedge.side, price := (9/10 : ℚ) } :
        TradingSignal) ∈
      HedgeStrategy.checkExitSignals (fun _ _ => false) (fun _ _ => false) []
        [c4walong, c4whedge] (9/10) :=
  c4_amended.1 (fun _ _ => false) (fun _ _ => false) [] [c4walong, c4whedge] c4walong c4whedge
    (9/10) (by decide) (by decide) (by decide) (by decide) (by decide) (by decide) (by decide)

/-- Membership in the stable strength-descending insertion. -/
theorem mem_insertByStrengthDesc {x a : DynamicLevels.DynamicLevel} :
    ∀ {l : List DynamicLevels.DynamicLevel},
      a ∈ DynamicLevels.insertByStrengthDesc x l ↔ a = x ∨ a ∈ l := by
  intro l
  induction l with
  | nil => simp [DynamicLevels.insertByStrengthDesc]
  | cons y ys ih =>
    simp only [DynamicLevels.insertByStrengthDesc]
    split
    · simp only [List.mem_cons, ih]
      tauto
    · simp only [List.mem_cons]

/-- Length of the stable strength-descending insertion. -/
theorem length_insertByStrengthDesc (x : DynamicLevels.DynamicLevel) :
    ∀ (l : List DynamicLevels.DynamicLevel),
      (DynamicLevels.insertByStrengthDesc x l).length = l.length + 1 := by
  intro l
  induction l with
  | nil => rfl
  | cons y ys ih =>
    simp only [DynamicLevels.insertByStrengthDesc]
    split
    · simp [ih]
    · simp

/-- Sorting by strength preserves membership. -/
theorem mem_sortByStrengthDesc {a : DynamicLevels.DynamicLevel} :
    ∀ {l : List DynamicLevels.DynamicLevel},
      a ∈ DynamicLevels.sortByStrengthDesc l ↔ a ∈ l := by
  intro l
  induction l with
  | nil => simp [DynamicLevels.sortByStrengthDesc]
  | cons y ys ih =>
    simp [DynamicLevels.sortByStrengthDesc, mem_insertByStrengthDesc, ih]

/-- Sorting by strength preserves length. -/
theorem length_sortByStrengthDesc :
    ∀ (l : List DynamicLevels.DynamicLevel),
      (DynamicLevels.sortByStrengthDesc l).length = l.length := by
  intro l
  induction l with
  | nil => rfl
  | cons y ys ih =>
    simp [DynamicLevels.sortByStrengthDesc, length_insertByStrengthDesc, ih]

/-- Cleanup establishes the retained-set invariant unconditionally. -/
theorem cleanup_levelInvariant (levels : List DynamicLevels.DynamicLevel) :
    levelInvariant (DynamicLevels.cleanupWeakLevels levels) := by
  unfold DynamicLevels.cleanupWeakLevels levelInvariant
  by_cases h : DynamicLevels.maxLevels <
      (levels.filter fun level => decide (DynamicLevels.minTouches ≤ level.touches)).length
  · rw [if_pos h]
    constructor
    · rw [List.length_take]
      exact min_le_left _ _
    · intro l hl
      have hmem : l ∈ DynamicLevels.sortByStrengthDesc
          (levels.filter fun level => decide (DynamicLevels.minTouches ≤ level.touches)) :=
        List.mem_of_mem_take hl
      have hfl := (List.mem_filter.mp (mem_sortByStrengthDesc.mp hmem)).2
      simpa using hfl
  · rw [if_neg h]
    constructor
    · exact Nat.le_of_not_lt h
    · intro l hl
      have hfl := (List.mem_filter.mp hl).2
      simpa using hfl

/-- C8: the level learner's update keeps the retained set within `maxLevels`
(10) and every retained level with `touches ≥ minTouches` (2): from any prior
level set satisfying the invariant and any bar sequence, the invariant holds
after `updateLevels`. -/
theorem c8_theorem (levels : List DynamicLevels.DynamicLevel) (prices : List ℚ)
    (h : levelInvariant levels) :
    levelInvariant (DynamicLevels.updateLevels levels prices) := by
  unfold DynamicLevels.updateLevels
  split
  · exact h
  · obtain ⟨hlen, hmem⟩ := cleanup_levelInvariant
      (DynamicLevels.updateExistingLevels (DynamicLevels.detectNewLevels levels prices) prices)
    constructor
    · simpa [DynamicLevels.sortLevelsByStrength, length_sortByStrengthDesc] using hlen
    · intro l hl
      exact hmem l (mem_sortByStrengthDesc.mp
        (by simpa [DynamicLevels.sortLevelsByStrength] using hl))

/-- C8 (witness): the invariant holds on a concrete prior set and bar list. -/
theorem c8_theorem_witness :
    levelInvariant [c9level] ∧ levelInvariant (DynamicLevels.updateLevels [c9level] c9prices) :=
  ⟨⟨by decide, by decide⟩, c8_theorem [c9level] c9prices ⟨by decide, by decide⟩⟩

/-- C9 (counterexample): a new candidate resistance at 100 (a local high of the
bars) lying within tolerance of the existing resistance level at 100 does NOT
reinforce it: after the update the level still has touches 2 and strength 0.4
(the claim requires touches 3 and a recomputed strength). -/
theorem c9_counterexample :
    DynamicLevels.localHighs c9prices = [100] ∧
    c9level.type = DynamicLevels.LevelType.RESISTANCE ∧
    |c9level.price - (100 : ℚ)| / 100 ≤ DynamicLevels.tolerance ∧
    DynamicLevels.updateLevels [c9level] c9prices = [c9level] ∧
    c9level.touches = 2 ∧ c9level.strength = 2/5 := by decide

/-- Folding candidate insertion only ever appends fresh levels. -/
theorem foldl_insertCandidate_append (t : DynamicLevels.LevelType) :
    ∀ (cands : List ℚ) (levels : List DynamicLevels.DynamicLevel),
      ∃ inserted,
        cands.foldl (fun acc c => DynamicLevels.insertCandidate acc c t) levels =
          levels ++ inserted ∧
        ∀ l ∈ inserted, l.strength = 3/10 ∧ l.touches = 1 := by
  intro cands
  induction cands with
  | nil => intro levels; exact ⟨[], by simp, by simp⟩
  | cons c cs ih =>
    intro levels
    rw [List.foldl_cons]
    cases hfind : DynamicLevels.findNearbyLevel levels c t with
    | some l0 =>
      have heq : DynamicLevels.insertCandidate levels c t = levels := by
        simp [DynamicLevels.insertCandidate, hfind]
      rw [heq]
      exact ih levels
    | none =>
      have heq : DynamicLevels.insertCandidate levels c t =
          levels ++ [DynamicLevels.newLevel c t] := by
        simp [DynamicLevels.insertCandidate, hfind]
      rw [heq]
      obtain ⟨ins, hins, hall⟩ := ih (levels ++ [DynamicLevels.newLevel c t])
      refine ⟨DynamicLevels.newLevel c t :: ins, ?_, ?_⟩
      · rw [hins, List.append_assoc]
        rfl
      · intro l hl
        rcases List.mem_cons.mp hl with h | h
        · subst h; exact ⟨rfl, rfl⟩
        · exact hall l h

/-- C9 (amended): a candidate within tolerance of an existing same-type level
is DISCARDED (no duplicate is created and the existing level is untouched by
detection); a candidate with no nearby level is appended with initial strength
0.3 and touches 1; reinforcement — touches incremented, strength recomputed as
min(1, 0.3 + 0.1×(touches−1)) — happens only in `updateExistingLevels`, and
only for levels within tolerance of the LAST bar's price. -/
theorem c9_amended :
    (∀ (levels : List DynamicLevels.DynamicLevel) (price : ℚ) (t : DynamicLevels.LevelType),
      (DynamicLevels.findNearbyLevel levels price t).isSome = true →
        DynamicLevels.insertCandidate levels price t = levels) ∧
    (∀ (levels : List DynamicLevels.DynamicLevel) (price : ℚ) (t : DynamicLevels.LevelType),
      DynamicLevels.findNearbyLevel levels price t = none →
        DynamicLevels.insertCandidate levels price t =
          levels ++ [DynamicLevels.newLevel price t] ∧
        (DynamicLevels.newLevel price t).strength = 3/10 ∧
        (DynamicLevels.newLevel price t).touches = 1) ∧
    (∀ (levels : List DynamicLevels.DynamicLevel) (prices : List ℚ),
      ∃ inserted,
        DynamicLevels.detectNewLevels levels prices = levels ++ inserted ∧
        ∀ l ∈ inserted, l.strength = 3/10 ∧ l.touches = 1) ∧
    (∀ (currentPrice : ℚ) (level : DynamicLevels.DynamicLevel),
      (|currentPrice - level.price| / level.price ≤ DynamicLevels.tolerance →
        (DynamicLevels.touchLevel currentPrice level).touches = level.touches + 1 ∧
        (DynamicLevels.touchLevel currentPrice level).strength =
          min 1 (3/10 + ((level.touches + 1 : ℚ) - 1) * (1/10))) ∧
      (¬(|currentPrice - level.price| / level.price ≤ DynamicLevels.tolerance) →
        DynamicLevels.touchLevel currentPrice level = level)) := by
  refine ⟨?_, ?_, ?_, ?_⟩
  · intro levels price t h
    cases hfind : DynamicLevels.findNearbyLevel levels price t with
    | none => rw [hfind] at h; cases h
    | some l0 => simp [DynamicLevels.insertCandidate, hfind]
  · intro levels price t h
    exact ⟨by simp [DynamicLevels.insertCandidate, h], rfl, rfl⟩
  · intro levels prices
    simp only [DynamicLevels.detectNewLevels]
    obtain ⟨ins1, h1, a1⟩ := foldl_insertCandidate_append DynamicLevels.LevelType.RESISTANCE
      (DynamicLevels.localHighs prices) levels
    rw [h1]
    obtain ⟨ins2, h2, a2⟩ := foldl_insertCandidate_append DynamicLevels.LevelType.SUPPORT
      (DynamicLevels.localLows prices) (levels ++ ins1)
    refine ⟨ins1 ++ ins2, ?_, ?_⟩
    · rw [h2, List.append_assoc]
    · intro l hl
      rcases List.mem_append.mp hl with h | h
      · exact a1 l h
      · exact a2 l h
  · intro currentPrice level
    constructor
    · intro h
      simp [DynamicLevels.touchLevel, h]
    · intro h
      simp [DynamicLevels.touchLevel, h]

/-- C9 (witness): the amended skip/touch rules at concrete inputs. -/
theorem c9_amended_witness :
    DynamicLevels.insertCandidate c2levels (17/20) DynamicLevels.LevelType.SUPPORT = c2levels ∧
    (DynamicLevels.touchLevel 100 c9level).touches = c9level.touches + 1 :=
  ⟨c9_amended.1 c2levels (17/20) DynamicLevels.LevelType.SUPPORT (by decide),
   ((c9_amended.2.2.2 100 c9level).1 (by decide)).1⟩

/-- Structure forced by a positive `peakCore` answer: the reversed buffer
starts with three samples satisfying the strict rise-then-fall and the
retracement bound. -/
theorem peakCore_lastThree (samples : List ℚ) (currentPrice : ℚ)
    (h : HedgeStrategy.peakCore samples currentPrice = true) :
    ∃ t s f rest, samples.reverse = t :: s :: f :: rest ∧
      f < s ∧ t < s ∧ 3/1000 ≤ (s - currentPrice) / s := by
  unfold HedgeStrategy.peakCore at h
  split at h
  · cases h
  · rcases hrev : samples.reverse with _ | ⟨t, _ | ⟨s, _ | ⟨f, rest⟩⟩⟩ <;> rw [hrev] at h
    · cases h
    · cases h
    · cases h
    · simp only [Bool.and_eq_true, decide_eq_true_eq] at h
      exact ⟨t, s, f, rest, rfl, h.1.1, h.1.2, h.2⟩

/-- Structure forced by a positive `troughCore` answer. -/
theorem troughCore_lastThree (samples : List ℚ) (currentPrice : ℚ)
    (h : HedgeStrategy.troughCore samples currentPrice = true) :
    ∃ t s f rest, samples.reverse = t :: s :: f :: rest ∧
      s < f ∧ s < t ∧ 3/1000 ≤ (currentPrice - s) / s := by
  unfold HedgeStrategy.troughCore at h
  split at h
  · cases h
  · rcases hrev : samples.reverse with _ | ⟨t, _ | ⟨s, _ | ⟨f, rest⟩⟩⟩ <;> rw [hrev] at h
    · cases h
    · cases h
    · cases h
    · simp only [Bool.and_eq_true, decide_eq_true_eq] at h
      exact ⟨t, s, f, rest, rfl, h.1.1, h.1.2, h.2⟩

/-- Peak detection fires only on a strict rise-then-fall over the last three
samples, with the current sample retraced at least 0.3% below the middle. -/
theorem detectPricePeak_lastThree (history : List ℚ) (currentPrice : ℚ)
    (h : HedgeStrategy.detectPricePeak history currentPrice = true) :
    ∃ a b rest, (history ++ [currentPrice]).reverse = currentPrice :: b :: a :: rest ∧
      a < b ∧ currentPrice < b ∧ 3/1000 ≤ (b - currentPrice) / b := by
  simp only [HedgeStrategy.detectPricePeak] at h
  by_cases htrim : 10 < (history ++ [currentPrice]).length
  · rw [if_pos htrim] at h
    rcases history with _ | ⟨hd, tl⟩
    · simp at htrim
    · have htail : ((hd :: tl) ++ [currentPrice]).tail = tl ++ [currentPrice] := rfl
      rw [htail] at h
      obtain ⟨t, s, f, rest, hrev, hfs, hts, hret⟩ := peakCore_lastThree _ _ h
      rw [show (tl ++ [currentPrice]).reverse = currentPrice :: tl.reverse from by simp] at hrev
      rw [List.cons.injEq] at hrev
      obtain ⟨ht, h2⟩ := hrev
      subst ht
      exact ⟨f, s, rest ++ [hd], by simp [h2], hfs, hts, hret⟩
  · rw [if_neg htrim] at h
    obtain ⟨t, s, f, rest, hrev, hfs, hts, hret⟩ := peakCore_lastThree _ _ h
    rw [show (history ++ [currentPrice]).reverse = currentPrice :: history.reverse from by simp]
      at hrev
    rw [List.cons.injEq] at hrev
    obtain ⟨ht, h2⟩ := hrev
    subst ht
    exact ⟨f, s, rest, by simp [h2], hfs, hts, hret⟩

/-- Trough detection fires only on a strict fall-then-rise over the last three
samples, with the current sample risen at least 0.3% above the middle. -/
theorem detectPriceTrough_lastThree (history : List ℚ) (currentPrice : ℚ)
    (h : HedgeStrategy.detectPriceTrough history currentPrice = true) :
    ∃ a b rest, (history ++ [currentPrice]).reverse = currentPrice :: b :: a :: rest ∧
      b < a ∧ b < currentPrice ∧ 3/1000 ≤ (currentPrice - b) / b := by
  simp only [HedgeStrategy.detectPriceTrough] at h
  by_cases htrim : 10 < (history ++ [currentPrice]).length
  · rw [if_pos htrim] at h
    rcases history with _ | ⟨hd, tl⟩
    · simp at htrim
    · have htail : ((hd :: tl) ++ [currentPrice]).tail = tl ++ [currentPrice] := rfl
      rw [htail] at h
      obtain ⟨t, s, f, rest, hrev, hsf, hst, hret⟩ := troughCore_lastThree _ _ h
      rw [show (tl ++ [currentPrice]).reverse = currentPrice :: tl.reverse from by simp] at hrev
      rw [List.cons.injEq] at hrev
      obtain ⟨ht, h2⟩ := hrev
      subst ht
      exact ⟨f, s, rest ++ [hd], by simp [h2], hsf, hst, hret⟩
  · rw [if_neg htrim] at h
    obtain ⟨t, s, f, rest, hrev, hsf, hst, hret⟩ := troughCore_lastThree _ _ h
    rw [show (history ++ [currentPrice]).reverse = currentPrice :: history.reverse from by simp]
      at hrev
    rw [List.cons.injEq] at hrev
    obtain ⟨ht, h2⟩ := hrev
    subst ht
    exact ⟨f, s, rest, by simp [h2], hsf, hst, hret⟩

/-- C10: peak detection returns true only when the last three samples form a
strict rise-then-fall with the middle sample the extreme and the current
sample retraced at least 0.3% from it; trough detection is the mirror image;
and on every monotonic (non-decreasing or non-increasing) sample sequence both
return false. -/
theorem c10_theorem :
    (∀ (history : List ℚ) (currentPrice : ℚ),
      HedgeStrategy.detectPricePeak history currentPrice = true →
        ∃ a b rest, (history ++ [currentPrice]).reverse = currentPrice :: b :: a :: rest ∧
          a < b ∧ currentPrice < b ∧ 3/1000 ≤ (b - currentPrice) / b) ∧
    (∀ (history : List ℚ) (currentPrice : ℚ),
      List.Chain' (· ≤ ·) (history ++ [currentPrice]) →
        HedgeStrategy.detectPricePeak history currentPrice = false) ∧
    (∀ (history : List ℚ) (currentPrice : ℚ),
      List.Chain' (· ≥ ·) (history ++ [currentPrice]) →
        HedgeStrategy.detectPricePeak history currentPrice = false) ∧
    (∀ (history : List ℚ) (currentPrice : ℚ),
      HedgeStrategy.detectPriceTrough history currentPrice = true →
        ∃ a b rest, (history ++ [currentPrice]).reverse = currentPrice :: b :: a :: rest ∧
          b < a ∧ b < currentPrice ∧ 3/1000 ≤ (currentPrice - b) / b) ∧
    (∀ (history : List ℚ) (currentPrice : ℚ),
      List.Chain' (· ≤ ·) (history ++ [currentPrice]) →
        HedgeStrategy.detectPriceTrough history currentPrice = false) ∧
    (∀ (history : List ℚ) (currentPrice : ℚ),
      List.Chain' (· ≥ ·) (history ++ [currentPrice]) →
        HedgeStrategy.detectPriceTrough history currentPrice = false) := by
  refine ⟨detectPricePeak_lastThree, ?_, ?_, detectPriceTrough_lastThree, ?_, ?_⟩
  · intro history currentPrice hchain
    cases hb : HedgeStrategy.detectPricePeak history currentPrice with
    | false => rfl
    | true =>
      exfalso
      obtain ⟨a, b, rest, hrev, _, hcb, _⟩ := detectPricePeak_lastThree _ _ hb
      have hrc : List.Chain' (flip (· ≤ ·)) (history ++ [currentPrice]).reverse :=
        List.chain'_reverse.mpr hchain
      rw [hrev] at hrc
      exact absurd hcb (not_lt.mpr (List.chain'_cons.mp hrc).1)
  · intro history currentPrice hchain
    cases hb : HedgeStrategy.detectPricePeak history currentPrice with
    | false => rfl
    | true =>
      exfalso
      obtain ⟨a, b, rest, hrev, hab, _, _⟩ := detectPricePeak_lastThree _ _ hb
      have hrc : List.Chain' (flip (· ≥ ·)) (history ++ [currentPrice]).reverse :=
        List.chain'_reverse.mpr hchain
      rw [hrev] at hrc
      exact absurd hab (not_lt.mpr (List.chain'_cons.mp (List.chain'_cons.mp hrc).2).1)
  · intro history currentPrice hchain
    cases hb : HedgeStrategy.detectPriceTrough history currentPrice with
    | false => rfl
    | true =>
      exfalso
      obtain ⟨a, b, rest, hrev, hba, _, _⟩ := detectPriceTrough_lastThree _ _ hb
      have hrc : List.Chain' (flip (· ≤ ·)) (history ++ [currentPrice]).reverse :=
        List.chain'_reverse.mpr hchain
      rw [hrev] at hrc
      exact absurd hba (not_lt.mpr (List.chain'_cons.mp (List.chain'_cons.mp hrc).2).1)
  · intro history currentPrice hchain
    cases hb : HedgeStrategy.detectPriceTrough history currentPrice with
    | false => rfl
    | true =>
      exfalso
      obtain ⟨a, b, rest, hrev, _, hbc, _⟩ := detectPriceTrough_lastThree _ _ hb
      have hrc : List.Chain' (flip (· ≥ ·)) (history ++ [currentPrice]).reverse :=
        List.chain'_reverse.mpr hchain
      rw [hrev] at hrc
      exact absurd hbc (not_lt.mpr (List.chain'_cons.mp hrc).1)

/-- C10 (witness): peak detection on a concrete rise-then-fall and on concrete
monotonic sequences. -/
theorem c10_theorem_witness :
    HedgeStrategy.detectPricePeak [1, 2] (198/100) = true ∧
    HedgeStrategy.detectPricePeak [1, 2] 3 = false ∧
    HedgeStrategy.detectPriceTrough [2, 1] (102/100) = true ∧
    HedgeStrategy.detectPriceTrough [3, 2] 1 = false :=
  ⟨by decide,
   c10_theorem.2.1 [1, 2] 3 (by norm_num [List.chain'_cons]),
   by decide,
   c10_theorem.2.2.2.2.2 [3, 2] 1 (by norm_num [List.chain'_cons])⟩

end

end AdaBot
